import Mathlib

/-!
Shallow embedding of `pyflutterflow` (Supabase repository, Supabase client,
FastAPI routes, Firestore repository) and proofs about its specified
behaviour.

Time modelling: Python clock readings (`time.monotonic`, `datetime.now(...)
.timestamp()`) are floats; we model them as rationals.  `int()` applied to a
nonnegative timestamp truncates, which is `Int.floor` there.
-/

namespace PyFlutterflow

/-! ## TTL token cache

`token_cache = TTLCache(maxsize=100, ttl=300)` from `cachetools`.
A `TTLCache` maps keys to values, each entry carrying an expiry instant
`expires = insertion time + ttl`; membership and reads succeed only while
`now < expires`; on insertion expired entries are dropped first, then the
oldest surviving entries are evicted until the new entry fits within
`maxsize`.  The underlying dict keeps entries in insertion/refresh order,
so we model the cache as a list ordered oldest-first. -/

/-- One entry of the TTL cache: key, cached value, and absolute expiry
instant (insertion time + ttl). -/
structure CacheEntry where
  key : String
  value : String
  expires : ℚ
  deriving Repr, DecidableEq

/-- `TTLCache(maxsize=100, ...)` -/
def MAXSIZE : ℕ := 100

/-- `TTLCache(..., ttl=300)` -/
def TTL : ℚ := 300

/-- `TTLCache.expire(time)`: drop every entry whose expiry instant has been
reached (`time < expires` fails). -/
def expire (now : ℚ) (c : List CacheEntry) : List CacheEntry :=
  c.filter (fun e => now < e.expires)

/-- Membership plus read, `key in cache` followed by `cache[key]`:
the first entry for the key, provided it has not expired. -/
def cacheLookup (now : ℚ) (k : String) (c : List CacheEntry) : Option String :=
  match c.find? (fun e => e.key == k) with
  | some e => if now < e.expires then some e.value else none
  | none => none

/-- `TTLCache.__setitem__`: expire old entries, then either refresh an
existing key (moving it to the most-recent position with a new expiry) or,
evicting oldest entries while the cache would overflow `maxsize`, append the
new entry with expiry `now + ttl`. -/
def cacheSet (now : ℚ) (k v : String) (c : List CacheEntry) : List CacheEntry :=
  let c1 := expire now c
  if (c1.find? (fun e => e.key == k)).isSome then
    (c1.filter (fun e => ¬ (e.key == k))) ++ [⟨k, v, now + TTL⟩]
  else
    let c2 := if MAXSIZE < c1.length + 1 then c1.drop (c1.length + 1 - MAXSIZE) else c1
    c2 ++ [⟨k, v, now + TTL⟩]

/-! ## `SupabaseRepository.get_token`

```python
if user_id in token_cache:
    jwt_token = token_cache[user_id]
else:
    jwt_token = self.supabase.generate_jwt(user_id)
    token_cache[user_id] = jwt_token
return {'Authorization': f'Bearer {jwt_token}'}
```

The call is modelled at a single clock instant `now`; `gen` is
`self.supabase.generate_jwt` viewed as a token-producing function, and the
result records whether it was invoked. -/

/-- Result of one `get_token` call: the returned header dict, the cache
state afterwards, and whether `generate_jwt` was invoked. -/
structure TokenResult where
  headers : List (String × String)
  cache : List CacheEntry
  generated : Bool
  deriving Repr, DecidableEq

def get_token (gen : String → String) (now : ℚ) (user_id : String)
    (cache : List CacheEntry) : TokenResult :=
  match cacheLookup now user_id cache with
  | some jwt_token =>
      ⟨[("Authorization", "Bearer " ++ jwt_token)], cache, false⟩
  | none =>
      let jwt_token := gen user_id
      ⟨[("Authorization", "Bearer " ++ jwt_token)],
        cacheSet now user_id jwt_token cache, true⟩

/-- A sequence of `get_token` calls, each given by its clock instant and
`user_id`, run against the module-level cache (initially empty at import
time). -/
def runCalls (gen : String → String) (calls : List (ℚ × String)) : List CacheEntry :=
  calls.foldl (fun c p => (get_token gen p.1 p.2 c).cache) []

/-! ## `SupabaseClient.generate_jwt`

```python
payload = {
    "sub": member_id,
    "member_id": member_id,
    "iss": "supabase",
    "ref": "anjaiogkrejqwnisriqt",
    "role": "authenticated",
    "iat": int((datetime.now(timezone.utc)).timestamp()),
    "exp": int((datetime.now(timezone.utc) + timedelta(days=30)).timestamp()),
}
token = jwt.encode(payload, self.supabase_jwt_secret, algorithm='HS256')
```

`datetime.now` is read twice; the two readings are the parameters `t1` (for
`iat`) and `t2` (for `exp`), with `t1 ≤ t2` under a monotone clock.
`timedelta(days=30)` is 2592000 seconds.  `jwt.encode` is a third-party
boundary; it is modelled by the record of its inputs: the payload, the
signing key and the signing algorithm. -/

/-- The JWT payload dict built by `generate_jwt`. -/
structure JwtPayload where
  sub : String
  member_id : String
  iss : String
  ref : String
  role : String
  iat : ℤ
  exp : ℤ
  deriving Repr, DecidableEq

/-- `jwt.encode(payload, key, algorithm)` at the library boundary: the token
is determined by payload, signing key and algorithm. -/
structure EncodedJwt where
  payload : JwtPayload
  key : String
  alg : String
  deriving Repr, DecidableEq

/-- Seconds in `timedelta(days=30)`. -/
def THIRTY_DAYS : ℤ := 2592000

def generate_jwt (supabase_jwt_secret : String) (member_id : String)
    (t1 t2 : ℚ) : EncodedJwt :=
  { payload :=
      { sub := member_id
        member_id := member_id
        iss := "supabase"
        ref := "anjaiogkrejqwnisriqt"
        role := "authenticated"
        iat := ⌊t1⌋
        exp := ⌊t2 + (THIRTY_DAYS : ℚ)⌋ }
    key := supabase_jwt_secret
    alg := "HS256" }

/-! ## `SupabaseRepository.paginator`

```python
start = (params.page - 1) * params.size
end = start + params.size - 1
return start, end
```

`fastapi_pagination.Params` constrains `page >= 1` and `size >= 1`; Python
integers are unbounded, so the fields are modelled as `ℤ`. -/

def paginator (page size : ℤ) : ℤ × ℤ :=
  ((page - 1) * size, (page - 1) * size + size - 1)

/-! ## `FirebaseUser` (from `pyflutterflow.auth`) -/

/-- The fields of `FirebaseUser` the repository operations read. -/
structure FirebaseUser where
  uid : String
  role : String
  deriving Repr, DecidableEq

/-! ## `SupabaseRepository.delete`

```python
client = await self.supabase.get_client()
query = client.table(self.table_name)
await query.delete().eq("id", pk).execute()
```

The executed deletion is determined by the query the code builds: target
table, the `eq` filters, and the extra headers set on the query (none: this
method never calls `get_token`). -/

/-- The deletion request sent to Supabase: table, `eq` filters
(column, value), and extra headers. -/
structure DeleteQuery where
  table : String
  filters : List (String × String)
  headers : List (String × String)
  deriving Repr, DecidableEq

def SupabaseRepository.delete (table_name : String) (pk : ℤ)
    (current_user : FirebaseUser) : DeleteQuery :=
  { table := table_name
    filters := [("id", toString pk)]
    headers := [] }

/-! ## `FirestoreRepository.get`

```python
doc = await doc_ref.get()
if not doc.exists:
    raise ValueError
data = doc.to_dict()
if not data.get('user_id'):
    raise ValueError("Firestore document does not have a user_id field")
if data.get('user_id') != current_user.uid and current_user.role != constants.ADMIN_ROLE:
    raise ValueError("Attempted to access a record without privileges.")
return self.model(**data)
```

The Firestore store is modelled by the fetched document: `none` when the
document does not exist, otherwise its data.  `data.get('user_id')` is
`Option String` (`none` for a missing key); Python truthiness of a string
is non-emptiness.  `constants.ADMIN_ROLE` comes from a module outside the
repository sources, so the admin role is a parameter.  `self.model(**data)`
is the model constructor `mk` applied to the data. -/

/-- The data of a fetched Firestore document: its `user_id` field (absent
keys are `none`) plus the rest of the fields, kept abstract. -/
structure FsData (α : Type) where
  user_id : Option String
  rest : α
  deriving Repr, DecidableEq

/-- Python truthiness of `data.get('user_id')`: present and non-empty. -/
def truthy : Option String → Bool
  | none => false
  | some s => s ≠ ""

def FirestoreRepository.get {α β : Type} (mk : FsData α → β) (adminRole : String)
    (doc : Option (FsData α)) (current_user : FirebaseUser) : Except String β :=
  match doc with
  | none => .error "ValueError"
  | some data =>
    if ¬ truthy data.user_id then
      .error "Firestore document does not have a user_id field"
    else if data.user_id ≠ some current_user.uid ∧ current_user.role ≠ adminRole then
      .error "Attempted to access a record without privileges."
    else
      .ok (mk data)

/-! ## Supabase proxy routes (`pyflutterflow/routes.py`)

```python
@router.get("/supabase/{path:path}")
async def supabase_get_proxy(response = Depends(proxy)):
    return response

@router.post("/supabase/{path:path}")
async def supabase_post_proxy(response = Depends(proxy_with_body)):
    return response

@router.patch("/supabase/{path:path}")
async def supabase_update_proxy(response = Depends(proxy_with_body)):
    return response

@router.delete("/supabase/{path:path}")
async def supabase_delete_proxy(response = Depends(proxy)):
    return response
```

Each handler returns the response produced by the `proxy` /
`proxy_with_body` dependency. -/

inductive Method where
  | GET | POST | PATCH | DELETE
  deriving Repr, DecidableEq

/-- An inbound HTTP request as the route layer sees it: method, the `path`
segment captured by `/supabase/{path:path}`, and an optional body. -/
structure HttpRequest where
  method : Method
  path : String
  body : Option String
  deriving Repr, DecidableEq

/-- The request the proxy sends upstream: the Supabase REST API target URL,
method, forwarded body, and the minted JWT put in the auth header. -/
structure ForwardedRequest where
  url : String
  method : Method
  body : Option String
  jwt : EncodedJwt
  deriving Repr, DecidableEq

/-- Modelled from the spec: `pyflutterflow.database.supabase.
supabase_functions.proxy` is imported by `routes.py` but its module is not
among the repository sources.  Per the spec, request proxying forwards an
inbound HTTP request to Supabase's REST API with a minted JWT: the proxy
mints a fresh Supabase JWT for the current user's uid, attaches it, sends
the request to the Supabase REST endpoint for the captured path, and
returns the upstream response.  `upstream` is the Supabase REST API;
bodyless variant (GET/DELETE). -/
def proxy (upstream : ForwardedRequest → String) (supabase_url secret : String)
    (current_user : FirebaseUser) (t1 t2 : ℚ) (req : HttpRequest) : String :=
  upstream
    { url := supabase_url ++ "/rest/v1/" ++ req.path
      method := req.method
      body := none
      jwt := generate_jwt secret current_user.uid t1 t2 }

/-- Modelled from the spec: `supabase_functions.proxy_with_body` is
likewise absent from the sources; same forwarding with the inbound body
included (POST/PATCH). -/
def proxy_with_body (upstream : ForwardedRequest → String)
    (supabase_url secret : String) (current_user : FirebaseUser) (t1 t2 : ℚ)
    (req : HttpRequest) : String :=
  upstream
    { url := supabase_url ++ "/rest/v1/" ++ req.path
      method := req.method
      body := req.body
      jwt := generate_jwt secret current_user.uid t1 t2 }

/-- Route dispatch for the four `/supabase/{path:path}` routes: GET and
DELETE use `proxy`, POST and PATCH use `proxy_with_body`; each handler
returns the dependency's response unchanged. -/
def dispatchSupabase (upstream : ForwardedRequest → String)
    (supabase_url secret : String) (current_user : FirebaseUser) (t1 t2 : ℚ)
    (req : HttpRequest) : String :=
  match req.method with
  | .GET => proxy upstream supabase_url secret current_user t1 t2 req
  | .DELETE => proxy upstream supabase_url secret current_user t1 t2 req
  | .POST => proxy_with_body upstream supabase_url secret current_user t1 t2 req
  | .PATCH => proxy_with_body upstream supabase_url secret current_user t1 t2 req

/-! ## Helper lemmas about the cache operations -/

lemma find?_append_of_none {α : Type} {p : α → Bool} {l1 l2 : List α}
    (h : l1.find? p = none) : (l1 ++ l2).find? p = l2.find? p := by
  rw [List.find?_append, h, Option.none_or]

lemma cacheLookup_of_find?_some {now : ℚ} {k : String} {c : List CacheEntry}
    {e : CacheEntry} (h : c.find? (fun e => e.key == k) = some e) :
    cacheLookup now k c = if now < e.expires then some e.value else none := by
  unfold cacheLookup
  rw [h]

lemma cacheLookup_of_find?_none {now : ℚ} {k : String} {c : List CacheEntry}
    (h : c.find? (fun e => e.key == k) = none) :
    cacheLookup now k c = none := by
  unfold cacheLookup
  rw [h]

/-- In both branches of `cacheSet`, the new entry is appended after a list
containing no entry for that key, so a search for the key finds exactly the
freshly inserted entry. -/
lemma cacheSet_find?_self (now : ℚ) (k v : String) (c : List CacheEntry) :
    (cacheSet now k v c).find? (fun e => e.key == k) = some ⟨k, v, now + TTL⟩ := by
  have hsingle : List.find? (fun e => e.key == k)
      ([⟨k, v, now + TTL⟩] : List CacheEntry) = some ⟨k, v, now + TTL⟩ := by
    simp [List.find?]
  unfold cacheSet
  by_cases h : ((expire now c).find? (fun e => e.key == k)).isSome
  · simp only [h, if_true]
    rw [find?_append_of_none, hsingle]
    rw [List.find?_eq_none]
    intro x hx
    have := (List.mem_filter.mp hx).2
    simpa using this
  · simp only [h, if_false, Bool.false_eq_true]
    rw [find?_append_of_none, hsingle]
    have hnone : (expire now c).find? (fun e => e.key == k) = none :=
      Option.not_isSome_iff_eq_none.mp (by simpa using h)
    have hall := List.find?_eq_none.mp hnone
    rw [List.find?_eq_none]
    intro x hx
    split at hx
    · exact hall x (List.drop_subset _ _ hx)
    · exact hall x hx

/-- A value just stored under a key is read back by a lookup at the same
instant. -/
lemma cacheLookup_cacheSet_self (now : ℚ) (k v : String) (c : List CacheEntry) :
    cacheLookup now k (cacheSet now k v c) = some v := by
  unfold cacheLookup
  rw [cacheSet_find?_self]
  have : now < now + TTL := by unfold TTL; linarith
  simp [this]

lemma cacheSet_length_le (now : ℚ) (k v : String) (c : List CacheEntry)
    (h : c.length ≤ MAXSIZE) : (cacheSet now k v c).length ≤ MAXSIZE := by
  have h1 : (expire now c).length ≤ MAXSIZE :=
    le_trans (List.length_filter_le _ _) h
  unfold cacheSet
  by_cases hs : ((expire now c).find? (fun e => e.key == k)).isSome
  · obtain ⟨e, he⟩ := Option.isSome_iff_exists.mp hs
    have hmem := List.mem_of_find?_eq_some he
    have hpe := List.find?_some he
    have hlt : ((expire now c).filter (fun e => ¬ (e.key == k))).length
        < (expire now c).length := by
      rw [List.length_filter_lt_length_iff_exists]
      exact ⟨e, hmem, by simp [hpe]⟩
    simp only [hs, if_true, List.length_append, List.length_singleton]
    omega
  · simp only [hs, if_false, Bool.false_eq_true, List.length_append,
      List.length_singleton]
    split
    · rw [List.length_drop]
      unfold MAXSIZE at *
      omega
    · unfold MAXSIZE at *
      omega

/-! ## Claim theorems -/

/-- C8: for pagination parameters with `page ≥ 1` and `size ≥ 1`,
`SupabaseRepository.paginator` returns `((page - 1) * size, page * size - 1)`,
an inclusive index range of exactly `size` elements, and the ranges of
consecutive pages are contiguous (hence non-overlapping). -/
theorem paginator_spec (page size : ℤ) (hp : 1 ≤ page) (hs : 1 ≤ size) :
    paginator page size = ((page - 1) * size, page * size - 1) ∧
    (paginator page size).2 - (paginator page size).1 + 1 = size ∧
    (paginator page size).1 ≤ (paginator page size).2 ∧
    (paginator (page + 1) size).1 = (paginator page size).2 + 1 := by
  refine ⟨?_, by simp [paginator]; ring, by simp [paginator]; linarith,
    by simp [paginator]; ring⟩
  unfold paginator
  congr 1
  ring

/-- Witness for C8 at `page = 2`, `size = 10`. -/
theorem paginator_spec_witness :
    paginator 2 10 = ((2 - 1) * 10, 2 * 10 - 1) ∧
    (paginator 2 10).2 - (paginator 2 10).1 + 1 = 10 ∧
    (paginator 2 10).1 ≤ (paginator 2 10).2 ∧
    (paginator (2 + 1) 10).1 = (paginator 2 10).2 + 1 :=
  paginator_spec 2 10 (by norm_num) (by norm_num)

/-- C6: `SupabaseRepository.delete` is independent of the calling user: for
any primary key and any two users the identical deletion is issued, filtered
only on `id = pk`, with no ownership filter and no auth header. -/
theorem delete_user_independent (table_name : String) (pk : ℤ)
    (u1 u2 : FirebaseUser) :
    SupabaseRepository.delete table_name pk u1 =
      SupabaseRepository.delete table_name pk u2 ∧
    (SupabaseRepository.delete table_name pk u1).filters =
      [("id", toString pk)] ∧
    (SupabaseRepository.delete table_name pk u1).headers = [] :=
  ⟨rfl, rfl, rfl⟩

/-- C2 counterexample: with clock readings 0 and 1 for the two
`datetime.now` calls inside `generate_jwt`, the payload has
`exp = 2592001` but `iat + 30 days = 2592000`, refuting
`exp = iat + exactly 30 days`. -/
theorem generate_jwt_exp_counterexample :
    ¬ ((generate_jwt "s" "m" 0 1).payload.exp =
        (generate_jwt "s" "m" 0 1).payload.iat + THIRTY_DAYS) := by
  norm_num [generate_jwt, THIRTY_DAYS]

/-- C2 (amended): `generate_jwt` returns a token signed with HS256 under
the configured `supabase_jwt_secret`, with payload `sub = member_id`,
`member_id = member_id`, `iss = "supabase"`, `role = "authenticated"`,
`iat` the truncation of the first clock reading and `exp` the truncation of
the second clock reading plus exactly 30 days; whenever the two clock
readings fall within the same second, `exp = iat + 30 days`. -/
theorem generate_jwt_spec (secret member_id : String) (t1 t2 : ℚ)
    (h : ⌊t1⌋ = ⌊t2⌋) :
    (generate_jwt secret member_id t1 t2).key = secret ∧
    (generate_jwt secret member_id t1 t2).alg = "HS256" ∧
    (generate_jwt secret member_id t1 t2).payload.sub = member_id ∧
    (generate_jwt secret member_id t1 t2).payload.member_id = member_id ∧
    (generate_jwt secret member_id t1 t2).payload.iss = "supabase" ∧
    (generate_jwt secret member_id t1 t2).payload.role = "authenticated" ∧
    (generate_jwt secret member_id t1 t2).payload.exp =
      (generate_jwt secret member_id t1 t2).payload.iat + THIRTY_DAYS := by
  refine ⟨rfl, rfl, rfl, rfl, rfl, rfl, ?_⟩
  show ⌊t2 + (THIRTY_DAYS : ℚ)⌋ = ⌊t1⌋ + THIRTY_DAYS
  rw [h]
  exact_mod_cast Int.floor_add_int t2 (THIRTY_DAYS : ℤ)

/-- Witness for C2 (amended) at both clock readings `5/2`. -/
theorem generate_jwt_spec_witness :
    (generate_jwt "sec" "m" (5/2) (5/2)).payload.exp =
      (generate_jwt "sec" "m" (5/2) (5/2)).payload.iat + THIRTY_DAYS :=
  (generate_jwt_spec "sec" "m" (5/2) (5/2) rfl).2.2.2.2.2.2

/-- C5: every inbound request under `/supabase/{path}` with method GET,
POST, PATCH or DELETE (the only registered proxy methods) is forwarded to
the Supabase REST API with a newly minted Supabase JWT attached, and the
route handler returns the proxied response. -/
theorem supabase_proxy_spec (upstream : ForwardedRequest → String)
    (supabase_url secret : String) (current_user : FirebaseUser) (t1 t2 : ℚ)
    (req : HttpRequest) :
    ∃ fwd : ForwardedRequest,
      dispatchSupabase upstream supabase_url secret current_user t1 t2 req =
        upstream fwd ∧
      fwd.url = supabase_url ++ "/rest/v1/" ++ req.path ∧
      fwd.method = req.method ∧
      fwd.jwt = generate_jwt secret current_user.uid t1 t2 := by
  rcases req with ⟨m, p, b⟩
  cases m <;> exact ⟨_, rfl, rfl, rfl, rfl⟩

/-- C7: `FirestoreRepository.get` raises `ValueError` exactly when the
document does not exist, or its data lacks a truthy `user_id` field, or its
`user_id` differs from `current_user.uid` while `current_user.role` is not
the admin role; otherwise it returns the model built from the document's
data. -/
theorem firestore_get_spec {α β : Type} (mk : FsData α → β) (adminRole : String)
    (doc : Option (FsData α)) (u : FirebaseUser) :
    ((∃ msg, FirestoreRepository.get mk adminRole doc u = .error msg) ↔
      (doc = none ∨ ∃ data, doc = some data ∧
        (truthy data.user_id = false ∨
          (data.user_id ≠ some u.uid ∧ u.role ≠ adminRole)))) ∧
    (∀ data, doc = some data → truthy data.user_id = true →
      (data.user_id = some u.uid ∨ u.role = adminRole) →
      FirestoreRepository.get mk adminRole doc u = .ok (mk data)) := by
  cases doc with
  | none => simp [FirestoreRepository.get]
  | some data =>
    by_cases ht : truthy data.user_id
    · by_cases hw : data.user_id ≠ some u.uid ∧ u.role ≠ adminRole
      · constructor
        · simp [FirestoreRepository.get, ht, hw]
        · intro d hd h1 h2
          injection hd with hd
          subst hd
          rcases h2 with h2 | h2
          · exact absurd h2 hw.1
          · exact absurd h2 hw.2
      · constructor
        · simp only [FirestoreRepository.get, ht, not_true_eq_false,
            if_false, hw, reduceCtorEq, exists_false, false_iff]
          push_neg
          refine ⟨by simp, ?_⟩
          intro d hd
          injection hd with hd
          subst hd
          exact ⟨by simpa using ht, fun hne => by
            rcases not_and_or.mp hw with h | h
            · exact absurd hne (by simpa using h)
            · simpa using h⟩
        · intro d hd _ _
          injection hd with hd
          subst hd
          simp [FirestoreRepository.get, ht, hw]
    · constructor
      · constructor
        · intro _
          exact Or.inr ⟨data, rfl, Or.inl (by simpa using ht)⟩
        · intro _
          exact ⟨"Firestore document does not have a user_id field",
            by simp [FirestoreRepository.get, ht]⟩
      · intro d hd hT _
        injection hd with hd
        subst hd
        exact absurd hT (by simpa using ht)

/-- Witness for C7: an existing document owned by the requesting user is
returned. -/
theorem firestore_get_spec_witness :
    FirestoreRepository.get (fun d => d.rest) "admin"
      (some ⟨some "u1", (0 : ℕ)⟩) ⟨"u1", "user"⟩ = .ok 0 :=
  (firestore_get_spec (fun d => d.rest) "admin"
      (some ⟨some "u1", (0 : ℕ)⟩) ⟨"u1", "user"⟩).2
    ⟨some "u1", 0⟩ rfl (by decide) (Or.inl rfl)

/-- C1: `get_token` returns `{'Authorization': 'Bearer <t>'}` where `t` is
the (unexpired) cached token for the user when present — leaving the cache
untouched — and otherwise a freshly generated token from
`generate_jwt(user_id)`, stored in the cache under `user_id` before
returning. -/
theorem get_token_spec (gen : String → String) (now : ℚ) (user_id : String)
    (c : List CacheEntry) :
    (∀ tok, cacheLookup now user_id c = some tok →
      (get_token gen now user_id c).headers =
        [("Authorization", "Bearer " ++ tok)] ∧
      (get_token gen now user_id c).cache = c) ∧
    (cacheLookup now user_id c = none →
      (get_token gen now user_id c).headers =
        [("Authorization", "Bearer " ++ gen user_id)] ∧
      (get_token gen now user_id c).cache =
        cacheSet now user_id (gen user_id) c ∧
      cacheLookup now user_id (get_token gen now user_id c).cache =
        some (gen user_id)) := by
  constructor
  · intro tok hl
    simp [get_token, hl]
  · intro hl
    refine ⟨by simp [get_token, hl], by simp [get_token, hl], ?_⟩
    simp only [get_token, hl]
    exact cacheLookup_cacheSet_self now user_id (gen user_id) c

/-- Witness for C1: a miss on the empty cache generates, returns and caches
a fresh token. -/
theorem get_token_spec_witness :
    (get_token (fun _ => "T") 0 "u" []).headers =
      [("Authorization", "Bearer T")] ∧
    cacheLookup 0 "u" (get_token (fun _ => "T") 0 "u" []).cache = some "T" := by
  have h := (get_token_spec (fun _ => "T") 0 "u" []).2 rfl
  exact ⟨h.1, h.2.2⟩

/-- C4: cached tokens have a time-to-live.  Every cache entry is stored
with `expires = store time + 300`, so the first conjunct says a cached
token is only ever returned strictly before 300 seconds have elapsed since
it was stored; the second says that once an entry for the user has expired,
`get_token` invokes `generate_jwt` and caches the fresh token. -/
theorem get_token_ttl (gen : String → String) (now : ℚ) (user_id : String)
    (c : List CacheEntry) :
    ((get_token gen now user_id c).generated = false →
      ∃ e, c.find? (fun e => e.key == user_id) = some e ∧ now < e.expires ∧
        (get_token gen now user_id c).headers =
          [("Authorization", "Bearer " ++ e.value)]) ∧
    (∀ e, c.find? (fun e => e.key == user_id) = some e → e.expires ≤ now →
      (get_token gen now user_id c).generated = true ∧
      cacheLookup now user_id (get_token gen now user_id c).cache =
        some (gen user_id)) := by
  constructor
  · intro hgen
    cases hl : cacheLookup now user_id c with
    | none => simp [get_token, hl] at hgen
    | some tok =>
      cases hf : c.find? (fun e => e.key == user_id) with
      | none => rw [cacheLookup_of_find?_none hf] at hl; exact absurd hl (by simp)
      | some e =>
        rw [cacheLookup_of_find?_some hf] at hl
        by_cases hlt : now < e.expires
        · rw [if_pos hlt] at hl
          injection hl with hl
          subst hl
          refine ⟨e, rfl, hlt, ?_⟩
          have : cacheLookup now user_id c = some e.value := by
            rw [cacheLookup_of_find?_some hf, if_pos hlt]
          simp [get_token, this]
        · rw [if_neg hlt] at hl; exact absurd hl (by simp)
  · intro e hf hle
    have hl : cacheLookup now user_id c = none := by
      rw [cacheLookup_of_find?_some hf, if_neg (not_lt.mpr hle)]
    refine ⟨by simp [get_token, hl], ?_⟩
    simp only [get_token, hl]
    exact cacheLookup_cacheSet_self now user_id (gen user_id) c

/-- Witness for C4: an entry stored with expiry instant 10 is expired at
time 310, so the call generates and caches a fresh token. -/
theorem get_token_ttl_witness :
    (get_token (fun _ => "F") 310 "u"
      [⟨"u", "old", 10⟩]).generated = true ∧
    cacheLookup 310 "u" (get_token (fun _ => "F") 310 "u"
      [⟨"u", "old", 10⟩]).cache = some "F" :=
  (get_token_ttl (fun _ => "F") 310 "u" [⟨"u", "old", 10⟩]).2
    ⟨"u", "old", 10⟩ (by rfl) (by norm_num)

/-- C3: the token cache is bounded.  After any sequence of `get_token`
calls (each at some clock instant, for some user) starting from the empty
module-level cache, the cache holds at most `MAXSIZE = 100` entries. -/
theorem token_cache_bounded (gen : String → String)
    (calls : List (ℚ × String)) :
    (runCalls gen calls).length ≤ MAXSIZE := by
  suffices h : ∀ (calls : List (ℚ × String)) (c : List CacheEntry),
      c.length ≤ MAXSIZE →
      (calls.foldl (fun c p => (get_token gen p.1 p.2 c).cache) c).length
        ≤ MAXSIZE by
    exact h calls [] (by simp)
  intro calls
  induction calls with
  | nil => intro c hc; exact hc
  | cons p ps ih =>
    intro c hc
    rw [List.foldl_cons]
    apply ih
    cases hl : cacheLookup p.1 p.2 c with
    | some tok => simpa [get_token, hl] using hc
    | none =>
      simp only [get_token, hl]
      exact cacheSet_length_le p.1 p.2 (gen p.2) c hc

/-- C9: `get_token` is idempotent within the cache window.  Two successive
calls for the same `user_id`, such that no cache entry for that user
expires between them (and, there being no intervening call, no eviction can
occur), return equal Authorization headers, and the second call does not
invoke `generate_jwt` — so it is invoked at most once across the pair. -/
theorem get_token_idempotent (gen : String → String) (now1 now2 : ℚ)
    (user_id : String) (c : List CacheEntry)
    (hfresh : ∀ e ∈ (get_token gen now1 user_id c).cache,
      e.key = user_id → now2 < e.expires) :
    (get_token gen now2 user_id
        (get_token gen now1 user_id c).cache).headers =
      (get_token gen now1 user_id c).headers ∧
    (get_token gen now2 user_id
        (get_token gen now1 user_id c).cache).generated = false := by
  cases hl : cacheLookup now1 user_id c with
  | some tok =>
    have hcache : (get_token gen now1 user_id c).cache = c := by
      simp [get_token, hl]
    cases hf : c.find? (fun e => e.key == user_id) with
    | none => rw [cacheLookup_of_find?_none hf] at hl; exact absurd hl (by simp)
    | some e =>
      rw [cacheLookup_of_find?_some hf] at hl
      by_cases hlt : now1 < e.expires
      · rw [if_pos hlt] at hl
        injection hl with hl
        subst hl
        have hkey : e.key = user_id := by
          have := List.find?_some hf
          simpa using this
        have h2 : now2 < e.expires :=
          hfresh e (by rw [hcache]; exact List.mem_of_find?_eq_some hf) hkey
        have hl2 : cacheLookup now2 user_id c = some e.value := by
          rw [cacheLookup_of_find?_some hf, if_pos h2]
        have hl1 : cacheLookup now1 user_id c = some e.value := by
          rw [cacheLookup_of_find?_some hf, if_pos hlt]
        rw [hcache]
        constructor
        · simp [get_token, hl1, hl2]
        · simp [get_token, hl2]
      · rw [if_neg hlt] at hl; exact absurd hl (by simp)
  | none =>
    have hcache : (get_token gen now1 user_id c).cache =
        cacheSet now1 user_id (gen user_id) c := by
      simp [get_token, hl]
    have hnew : (⟨user_id, gen user_id, now1 + TTL⟩ : CacheEntry) ∈
        (get_token gen now1 user_id c).cache := by
      rw [hcache]
      exact List.mem_of_find?_eq_some (cacheSet_find?_self now1 user_id _ c)
    have h2 : now2 < now1 + TTL := hfresh _ hnew rfl
    have hl2 : cacheLookup now2 user_id
        (cacheSet now1 user_id (gen user_id) c) = some (gen user_id) := by
      rw [cacheLookup_of_find?_some (cacheSet_find?_self now1 user_id _ c),
        if_pos h2]
    constructor
    · simp [get_token, hl, hl2]
    · simp [get_token, hl, hl2]

/-- Witness for C9: a miss at time 0 followed by a call at time 100 (inside
the 300-second window) re-returns the same header without generating. -/
theorem get_token_idempotent_witness :
    (get_token (fun _ => "T") 100 "u"
        (get_token (fun _ => "T") 0 "u" []).cache).headers =
      (get_token (fun _ => "T") 0 "u" []).headers ∧
    (get_token (fun _ => "T") 100 "u"
        (get_token (fun _ => "T") 0 "u" []).cache).generated = false :=
  get_token_idempotent (fun _ => "T") 0 100 "u" [] (by
    intro e he _
    have : (get_token (fun _ => "T") 0 "u" []).cache =
        [⟨"u", "T", 0 + TTL⟩] := rfl
    rw [this] at he
    simp at he
    rw [he]
    norm_num [TTL])

end PyFlutterflow
